import Mathlib

/-!
# Verification of the best-jrrp fortune-score core

Shallow embedding of the scoring algorithms, hash functions, expression
synthesizer and user-data operations of the koishi-plugin-best-jrrp
repository (src/JrrpService.ts, src/JrrpCalculator.ts, src/fortunecalc.ts),
together with theorems settling the specification claims.

JavaScript numbers are modelled as exact rationals (every IEEE-754 double is
a rational; the integral intermediates proved below stay far inside the
53-bit exact range), BigInt as `Nat`/`Int`, strings as lists of UTF-16 code
units, and the transcendental `Math` functions plus the two
value-dependent conversions (`Number(bigint)`, number-to-string) as fields
of an abstract `FloatOps` oracle, so every theorem quantifies over all
possible floating-point behaviours of those primitives.
-/

namespace Jrrp

/-- UTF-16 code units of a (BMP, in practice ASCII) literal string. -/
def codes (s : String) : List Nat := s.data.map Char.toNat

/-- JS `ToUint32` on an integral number: value mod 2^32 into `[0, 2^32)`. -/
def toUint32 (n : Int) : Int := n % (2 ^ 32)

/-- JS `ToInt32` on an integral number: wrap into `[-2^31, 2^31)`. -/
def toInt32 (n : Int) : Int :=
  let m := n % (2 ^ 32)
  if m < 2 ^ 31 then m else m - 2 ^ 32

/-- JS `<<` on numbers: both operands coerced (`ToInt32` left, shift count
`ToUint32(right) mod 32`), result wrapped back to int32. -/
def jsShl (a b : Int) : Int :=
  toInt32 (toInt32 a * 2 ^ (toUint32 b % 32).toNat)

/-- JS `%` on integral numbers: truncated remainder (sign of the dividend). -/
def jsRem (a b : Int) : Int := Int.tmod a b

/-- Embedding of `JrrpService.hashCode` (src/JrrpService.ts lines 350-357):
`hash = 5381`, then per code unit `hash = ((hash << 5) + hash) + c` followed
by `hash = hash >>> 0` (unsigned 32-bit wrap). The additions happen on exact
small integers (< 2^53), so only the `<<` and `>>> 0` coercions wrap. -/
def hashCode (s : List Nat) : Int :=
  s.foldl (fun hash c => toUint32 (jsShl hash 5 + hash + (c : Int))) 5381

/-- Embedding of `FortuneCalc.generateSeed` (src/fortunecalc.ts lines 95-100), inner loop:
`hash = 0`, per code unit `hash = ((hash << 5) - hash) + c` then `hash |= 0`
(signed 32-bit wrap). -/
def generateSeedHash (s : List Nat) : Int :=
  s.foldl (fun hash c => toInt32 (jsShl hash 5 - hash + (c : Int))) 0

/-- Embedding of `FortuneCalc.generateSeed`: the wrapped hash of `userId + dateStr`
followed by `Math.abs`. -/
def generateSeed (userId dateStr : List Nat) : Int :=
  |generateSeedHash (userId ++ dateStr)|

/-- The algorithm enumeration `JrrpAlgorithm` (index.ts). -/
inductive JrrpAlgorithm
  | basic
  | gaussian
  | linear
  | randomorg
deriving DecidableEq, Repr

/-- The observable fields of a JS `Date` used by the repository: epoch
milliseconds (`getTime`), `getFullYear`, zero-based `getMonth`, day of month
(`getDate`) and weekday (`getDay`). -/
structure JSDate where
  time : Int
  year : Int
  month : Int
  day : Int
  weekday : Int
deriving DecidableEq, Repr

/-- Oracle for the floating-point `Math` primitives and the two
value-dependent conversions the code uses. Arithmetic on the results is
modelled exactly over `ℚ`; no law is assumed about the oracle, so theorems
quantifying over `FloatOps` hold for every possible IEEE-754 behaviour. -/
structure FloatOps where
  sin : ℚ → ℚ
  cos : ℚ → ℚ
  log : ℚ → ℚ
  sqrt : ℚ → ℚ
  pi : ℚ
  /-- JS number-to-string conversion (used to re-seed the Gaussian hash). -/
  numToString : ℚ → List Nat
  /-- JS `Number(bigint)` conversion (rounds to the nearest double). -/
  ofBigInt : Int → ℚ

/-- Code units of JS `String(n)` for an integral number: decimal digits,
minus sign for negatives. -/
def intStr (n : Int) : List Nat := codes (toString n)

/-- Embedding of `JrrpCalculator.getHash` (src/JrrpCalculator.ts lines 66-72): 64-bit
DJB2-XOR over BigInt, `hash = ((hash << 5) ^ hash ^ c) & (2^64 - 1)`
starting from 5381, finally XORed with `0xa98f501bc684032f`. -/
def calculatorGetHash (s : List Nat) : Nat :=
  (s.foldl (fun hash c => ((hash <<< 5) ^^^ hash ^^^ c) &&& (2 ^ 64 - 1)) 5381)
    ^^^ 0xa98f501bc684032f

/-- The local `getHash` closure inside `JrrpService.calculateJrrpWithCode`
(src/JrrpService.ts lines 456-462); textually identical to
`JrrpCalculator.getHash`. -/
def serviceGetHash (s : List Nat) : Nat :=
  (s.foldl (fun hash c => ((hash <<< 5) ^^^ hash ^^^ c) &&& (2 ^ 64 - 1)) 5381)
    ^^^ 0xa98f501bc684032f

/-- Models `new Date(year, 0, 0).getTime()`: epoch milliseconds of Dec 31 of the
previous year in the local time zone of the host, kept abstract (both
implementations call the same JS constructor). -/
def YearStart := Int → Int

/-- Embedding of `JrrpCalculator.getDayOfYear` (lines 54-59):
`Math.floor((date.getTime() - new Date(year,0,0).getTime()) / 86400000)`. -/
def getDayOfYear (yearStart : YearStart) (d : JSDate) : Int :=
  ⌊((d.time - yearStart d.year : ℚ) / (1000 * 60 * 60 * 24))⌋

/-- Embedding of `JrrpCalculator.calculateJrrpWithCode` (src/JrrpCalculator.ts lines
81-104): salts the day-of-year/year and password/code/day-of-month strings
into the 64-bit hash, merges `h1/3 + h2/3` over BigInt, converts to a
double, and maps `round(|merged/527|) mod 1001` onto `[0,100]` with the
`>= 970` perfect-score threshold and `969/99` scale. -/
def calculatorCalculateJrrpWithCode (fops : FloatOps) (yearStart : YearStart)
    (code : List Nat) (date : JSDate) (password : List Nat) : Int :=
  let dayOfYear := getDayOfYear yearStart date
  let year := date.year
  let day := date.day
  let hash1 := calculatorGetHash
    (codes "asdfgbn" ++ intStr dayOfYear ++ codes "12#3$45" ++ intStr year ++ codes "IUY")
  let hash2 := calculatorGetHash
    (password ++ code ++ codes "0*8&6" ++ intStr day ++ codes "kjhg")
  let mergedHash : Int := (hash1 / 3 + hash2 / 3 : Nat)
  let normalizedHash : ℚ := |fops.ofBigInt mergedHash / 527|
  let randomValue : Int := jsRem (round normalizedHash) 1001
  if randomValue ≥ 970 then 100 else round ((randomValue : ℚ) / 969 * 99)

/-- Embedding of `JrrpService.calculateJrrpWithCode` (src/JrrpService.ts lines 449-470):
computes `year`, `day` and the inline day-of-year, then runs the identical
hash/merge/normalize pipeline with the same constants. -/
def serviceCalculateJrrpWithCode (fops : FloatOps) (yearStart : YearStart)
    (code : List Nat) (date : JSDate) (password : List Nat) : Int :=
  let year := date.year
  let day := date.day
  let dayOfYear : Int := ⌊((date.time - yearStart year : ℚ) / (1000 * 60 * 60 * 24))⌋
  let hash1 := serviceGetHash
    (codes "asdfgbn" ++ intStr dayOfYear ++ codes "12#3$45" ++ intStr year ++ codes "IUY")
  let hash2 := serviceGetHash
    (password ++ code ++ codes "0*8&6" ++ intStr day ++ codes "kjhg")
  let mergedHash : Int := (hash1 / 3 + hash2 / 3 : Nat)
  let normalizedHash : ℚ := |fops.ofBigInt mergedHash / 527|
  let randomValue : Int := jsRem (round normalizedHash) 1001
  if randomValue ≥ 970 then 100 else round ((randomValue : ℚ) / 969 * 99)

/-- The `normalRandom` closure of the Gaussian branch (src/JrrpService.ts
lines 530-534): `sin(hashCode(seed)) * 10000` minus its `Math.floor`, i.e.
the fractional part, in `[0, 1)`. -/
def normalRandom (fops : FloatOps) (seed : List Nat) : ℚ :=
  let hash := hashCode seed
  let randomFactor := fops.sin (hash : ℚ) * 10000
  randomFactor - ⌊randomFactor⌋

/-- The `toNormalLuck` closure (lines 535-540): Box-Muller transform on the
supplied value (`u1` fed to `Math.log`, `u2` re-derived from its string
form), then `min(100, max(0, round(z * 15 + 50)))`. -/
def toNormalLuck (fops : FloatOps) (random : ℚ) : Int :=
  let u1 := random
  let u2 := normalRandom fops (fops.numToString random)
  let z := fops.sqrt (-2 * fops.log u1) * fops.cos (2 * fops.pi * u2)
  min 100 (max 0 (round (z * 15 + 50)))

/-- The weighted input to `toNormalLuck` (lines 541-543):
`dateWeight = (date.getDay() + 1) / 7`, `baseRandom = normalRandom(seed)`,
`weightedRandom = (baseRandom + dateWeight) / 2`. -/
def gaussianWeighted (fops : FloatOps) (seed : List Nat) (weekday : Int) : ℚ :=
  let dateWeight : ℚ := (weekday + 1) / 7
  let baseRandom := normalRandom fops seed
  (baseRandom + dateWeight) / 2

/-- JS truthiness of an optional string argument: defined and non-empty. -/
def truthyStr : Option (List Nat) → Bool
  | none => false
  | some s => !s.isEmpty

/-- Embedding of `JrrpService.calculateScoreWithAlgorithm` (src/JrrpService.ts lines
518-554): identification-code path when both `Code` and `password` are
truthy, otherwise the Gaussian, linear-congruential or modulo (`basic`,
also the `default` arm, hence `randomorg`) algorithm over the seed. -/
def calculateScoreWithAlgorithm (fops : FloatOps) (yearStart : YearStart)
    (userDateSeed : List Nat) (date : JSDate) (algorithm : JrrpAlgorithm)
    (code password : Option (List Nat)) : Int :=
  if truthyStr code ∧ truthyStr password then
    serviceCalculateJrrpWithCode fops yearStart (code.getD []) date (password.getD [])
  else
    match algorithm with
    | .gaussian => toNormalLuck fops (gaussianWeighted fops userDateSeed date.weekday)
    | .linear =>
        let lcgSeed := hashCode userDateSeed
        ⌊((jsRem (lcgSeed * 9301 + 49297) 233280 : ℚ) / 233280 * 101)⌋
    | .basic => jsRem |hashCode userDateSeed| 101
    | .randomorg => jsRem |hashCode userDateSeed| 101

/-- JS `x % 1` on a double: `x` minus its truncation toward zero. -/
def jsMod1 (x : ℚ) : ℚ := x - (if 0 ≤ x then (⌊x⌋ : ℚ) else (⌈x⌉ : ℚ))

/-- Value `u1` of the Gaussian branch of `FortuneCalc.calculate`
(src/fortunecalc.ts line 50): `Math.abs(Math.sin(seed) * 10000 % 1) || 0.0001` — the `||`
replaces a (falsy) zero by the literal `0.0001`. -/
def fortuneU1 (fops : FloatOps) (seed : Int) : ℚ :=
  let v := |jsMod1 (fops.sin (seed : ℚ) * 10000)|
  if v = 0 then 1 / 10000 else v

/-- Value `u2` of the same branch (line 51):
`Math.abs(Math.sin(seed + 127) * 10000 % 1) || 0.0001`. -/
def fortuneU2 (fops : FloatOps) (seed : Int) : ℚ :=
  let v := |jsMod1 (fops.sin ((seed : ℚ) + 127) * 10000)|
  if v = 0 then 1 / 10000 else v

/-- The local-computation part of `FortuneCalc.calculate` (src/fortunecalc.ts
lines 47-56): Gaussian branch for the gaussian algorithm, otherwise the
`(1664525 * seed + 1013904223) mod 2^32` congruential formula scaled to
`[0, 101)`. -/
def fortuneLocalScore (fops : FloatOps) (algorithm : JrrpAlgorithm)
    (userId dateStr : List Nat) : Int :=
  let seed := generateSeed userId dateStr
  if algorithm = .gaussian then
    let u1 := fortuneU1 fops seed
    let u2 := fortuneU2 fops seed
    let z := fops.sqrt (-2 * fops.log u1) * fops.cos (2 * fops.pi * u2)
    max 0 (min 100 (round (z * 15 + 50)))
  else
    ⌊((jsRem (1664525 * seed + 1013904223) (2 ^ 32) : ℚ) / 2 ^ 32 * 101)⌋

/-- Embedding of `FortuneCalc.calculate` (src/fortunecalc.ts lines 38-58) with the remote
fetch outcome supplied as data: a remote score is attempted only for the
`randomorg` algorithm with a truthy API key; any remote failure (`null`)
falls through to the local computation, whose result is labelled with
`this.algorithm` — the configured algorithm, unchanged. -/
def fortuneCalculate (fops : FloatOps) (algorithm : JrrpAlgorithm)
    (apiKey : Option (List Nat)) (remote : Option Int)
    (userId dateStr : List Nat) : Int × JrrpAlgorithm :=
  match (if algorithm = .randomorg ∧ truthyStr apiKey then remote else none) with
  | some score => (score, .randomorg)
  | none => (fortuneLocalScore fops algorithm userId dateStr, algorithm)

/-- The algorithm label persisted/reported by `JrrpService`: either one of
the enumeration values or the literal calCode string used for the
identification-code path. -/
inductive AlgLabel
  | alg : JrrpAlgorithm → AlgLabel
  | calCode
deriving DecidableEq, Repr

/-- The per-user record of `JrrpService` (`UserData` in index.ts): every
field optional in practice (absent JS properties read as `undefined`). -/
structure UserData where
  name : Option (List Nat) := none
  randomScore : Option Int := none
  timestamp : Option (List Nat) := none
  perfect_score : Bool := false
  identification_code : Option (List Nat) := none
  algorithm : Option AlgLabel := none
deriving DecidableEq, Repr

/-- The in-memory `userData` object: user id to record. -/
def UserMap := List Nat → Option UserData

/-- The ECMAScript white-space and line-terminator code points stripped by
`String.prototype.trim`. -/
def isJsSpace (c : Nat) : Bool :=
  c ∈ [0x9, 0xA, 0xB, 0xC, 0xD, 0x20, 0xA0, 0x1680, 0x2000, 0x2001, 0x2002,
       0x2003, 0x2004, 0x2005, 0x2006, 0x2007, 0x2008, 0x2009, 0x200A,
       0x2028, 0x2029, 0x202F, 0x205F, 0x3000, 0xFEFF]

/-- JS `String.prototype.trim`. -/
def jsTrim (s : List Nat) : List Nat :=
  ((s.dropWhile isJsSpace).reverse.dropWhile isJsSpace).reverse

/-- JS `String.prototype.toUpperCase`, restricted to the ASCII range (the
identification-code pattern only ever accepts ASCII characters, so the
full Unicode case mapping is irrelevant to the claims below). -/
def jsUpper (s : List Nat) : List Nat :=
  s.map fun c => if 97 ≤ c ∧ c ≤ 122 then c - 32 else c

/-- The identification-code pattern
`^[0-9A-F]{4}-[0-9A-F]{4}-[0-9A-F]{4}-[0-9A-F]{4}$`: length 19, a dash at
positions 4, 9 and 14, uppercase hex digits everywhere else. -/
def codePatternOk (s : List Nat) : Bool :=
  s.length == 19 &&
    (List.range 19).all fun i =>
      let c := s.getD i 0
      if i % 5 == 4 then c == 45
      else (48 ≤ c && c ≤ 57) || (65 ≤ c && c ≤ 70)

/-- Embedding of `JrrpService.bindIdentificationCode` (src/JrrpService.ts lines 112-128):
rejects an empty trimmed code or a pattern mismatch, otherwise replaces the
user record by a spread of the old record (or an empty record if absent) with
`identification_code` set to the trimmed, upper-cased code. Returns the JS
boolean result together with the updated map. -/
def bindIdentificationCode (m : UserMap) (userId code : List Nat) :
    Bool × UserMap :=
  if jsTrim code = [] then (false, m)
  else
    let formattedCode := jsUpper (jsTrim code)
    if ¬ codePatternOk formattedCode then (false, m)
    else
      let updated := { (m userId).getD {} with identification_code := some formattedCode }
      (true, fun uid => if uid = userId then some updated else m uid)

/-- The `getRandomOrgScoreLocal` closure of `JrrpService.formatJrrpMessage`
(src/JrrpService.ts lines 216-231), with the remote fetch outcome and the
timestamp-expiry test supplied as data: a cached same-day `randomorg` score
is reused; otherwise the remote score, and on remote failure (`null`) the
`basic` algorithm over the seed `userId + "-" + todayLocalDate`. -/
def getRandomOrgScoreLocal (fops : FloatOps) (yearStart : YearStart)
    (expired : List Nat → Bool) (userRecord : Option UserData)
    (remote : Option Int) (userId nowDateStr : List Nat)
    (now : JSDate) : Int :=
  let cached : Option Int :=
    match userRecord with
    | some u =>
        match u.randomScore, u.timestamp, u.algorithm with
        | some rs, some ts, some (.alg .randomorg) =>
            if expired ts then none else some rs
        | _, _, _ => none
    | none => none
  match cached with
  | some rs => rs
  | none =>
      match remote with
      | some score => score
      | none =>
          calculateScoreWithAlgorithm fops yearStart
            (userId ++ codes "-" ++ nowDateStr) now .basic none none

/-- The score/algorithm selection of `JrrpService.formatJrrpMessage`
(src/JrrpService.ts lines 232-258) as a pure function. `calCode` is the
configured password (`config.calCode`) and `userCode` the identification
code bound by the user; `hasCode` requires both to be truthy. `none` models
the `fortuneResult = null` case (randomorg requested for another day). -/
def chooseFortuneResult (fops : FloatOps) (yearStart : YearStart)
    (expired : List Nat → Bool) (configAlgorithm : JrrpAlgorithm)
    (configCalCode : Option (List Nat)) (userRecord : Option UserData)
    (remote : Option Int) (userId todayDateStr nowDateStr : List Nat)
    (dateForCalculation now : JSDate) (isCurrentDay isDateCommand : Bool) :
    Option (Int × AlgLabel) :=
  let calCode : Option (List Nat) :=
    if truthyStr configCalCode then userRecord.bind (·.identification_code) else none
  let hasCode := truthyStr calCode ∧ truthyStr configCalCode
  if configAlgorithm = .randomorg then
    if hasCode then
      if isCurrentDay ∧ ¬ isDateCommand then
        some (getRandomOrgScoreLocal fops yearStart expired userRecord remote
          userId nowDateStr now, .alg .randomorg)
      else
        some (serviceCalculateJrrpWithCode fops yearStart (calCode.getD [])
          dateForCalculation (configCalCode.getD []), .calCode)
    else
      if isCurrentDay ∧ ¬ isDateCommand then
        some (getRandomOrgScoreLocal fops yearStart expired userRecord remote
          userId nowDateStr now, .alg .randomorg)
      else none
  else
    if hasCode then
      some (serviceCalculateJrrpWithCode fops yearStart (calCode.getD [])
        dateForCalculation (configCalCode.getD []), .calCode)
    else
      some (calculateScoreWithAlgorithm fops yearStart
        (userId ++ codes "-" ++ todayDateStr) dateForCalculation
        configAlgorithm none none, .alg configAlgorithm)

/-! ## Expression synthesizer (src/JrrpCalculator.ts, `ExpressionGenerator`)

The generators build strings by template interpolation; every composite
template wraps itself in parentheses, so the strings are mirrored here as a
small syntax tree whose `render` reproduces the exact template text and
whose `evalE` is JS evaluation (which, on these fully parenthesized
strings, coincides with standard operator-precedence evaluation).
`Math.random()` is modelled by an explicit list of pre-drawn values
consumed in source order (an exhausted list yields 0, itself a legal
`Math.random()` value), and recursion depth by fuel (`none` models the
non-terminating/stack-overflow executions). -/

/-- Syntax tree of the generated expression strings. `mulRaw` is the one
unparenthesized template (`decompose(num / 10) + " * " + digit(10)"` in
`generatePrimeFactorsExpression`). -/
inductive Expr
  | num : Int → Expr
  | add : Expr → Expr → Expr
  | sub : Expr → Expr → Expr
  | mul : Expr → Expr → Expr
  | mulRaw : Expr → Expr → Expr
  | shl : Expr → Expr → Expr
deriving DecidableEq, Repr

/-- The exact string the source templates produce for a tree. -/
def render : Expr → String
  | .num n => toString n
  | .add a b => "(" ++ render a ++ " + " ++ render b ++ ")"
  | .sub a b => "(" ++ render a ++ " - " ++ render b ++ ")"
  | .mul a b => "(" ++ render a ++ " * " ++ render b ++ ")"
  | .mulRaw a b => render a ++ " * " ++ render b
  | .shl a b => "(" ++ render a ++ " << " ++ render b ++ ")"

/-- JS evaluation of the generated expression (`<<` with the int32/uint32
coercions of the JS shift operator). -/
def evalE : Expr → Int
  | .num n => n
  | .add a b => evalE a + evalE b
  | .sub a b => evalE a - evalE b
  | .mul a b => evalE a * evalE b
  | .mulRaw a b => evalE a * evalE b
  | .shl a b => jsShl (evalE a) (evalE b)

/-- Mutable state of one `ExpressionGenerator` instance: the
`digitExpressions` map and the stream of pending `Math.random()` draws. -/
structure GenState where
  cache : List (Int × List Expr)
  rands : List ℚ
deriving DecidableEq, Repr

/-- Models `this.digitExpressions.get(n)`. -/
def cacheGet (s : GenState) (n : Int) : Option (List Expr) :=
  (s.cache.find? fun p => p.1 == n).map (·.2)

/-- Models `this.digitExpressions.set(n, l)` (replace or insert). -/
def cacheSet (s : GenState) (n : Int) (l : List Expr) : GenState :=
  { s with cache :=
      if s.cache.any (·.1 == n) then
        s.cache.map fun p => if p.1 == n then (n, l) else p
      else s.cache ++ [(n, l)] }

/-- Draw the next `Math.random()` value. -/
def nextRand (s : GenState) : ℚ × GenState :=
  match s.rands with
  | [] => (0, s)
  | r :: rs => (r, { s with rands := rs })

/-- Models `arr[Math.floor(r * arr.length)]` (default unreachable for `r ∈ [0,1)`
and a non-empty array). -/
def pickFrom (l : List Expr) (r : ℚ) (dflt : Expr) : Expr :=
  l.getD (⌊r * l.length⌋).toNat dflt

/-- Embedding of `ExpressionGenerator.getDigitExpr` (src/JrrpCalculator.ts lines
222-249) as it actually executes: the constructor (line 212) sets
`expressionsInitialized = true` and `formatScore` (lines 436-437) re-sets
it to `true` immediately after clearing, so the lazy table-initialization
block (lines 223-246) is dead code and the method reduces to the cache
lookup with the plain `String(n)` fallback. -/
def getDigitExpr (s : GenState) (n _baseNumber : Int) : Expr × GenState :=
  match cacheGet s n with
  | some exprs =>
      let (r, s1) := nextRand s
      (pickFrom exprs r (.num n), s1)
  | none => (.num n, s)

/-- Embedding of `ExpressionGenerator.generateDecimalExpression` (src/JrrpCalculator.ts
lines 257-294). Returns the built tree and the updated state, `none` when
the fuel for the (potentially non-terminating) recursion runs out. -/
def generateDecimalExpression : Nat → Int → Int → GenState → Option (Expr × GenState)
  | 0, _, _, _ => none
  | fuel + 1, target, baseNumber, s0 =>
    if target ≤ 10 then some (getDigitExpr s0 target baseNumber) else
    let cached := cacheGet s0 target
    let hit : Bool × GenState :=
      match cached with
      | some l =>
          if 0 < l.length then
            let (r, s1) := nextRand s0
            (decide (r > 3/10), s1)
          else (false, s0)
      | none => (false, s0)
    if hit.1 then
      let l := (cacheGet s0 target).getD []
      let (r2, s2) := nextRand hit.2
      some (pickFrom l r2 (.num target), s2)
    else
      let s1 := hit.2
      let gen : Option (Expr × GenState) :=
        if target = 100 then
          let (e1, sa) := getDigitExpr s1 10 baseNumber
          let (e2, sb) := getDigitExpr sa 10 baseNumber
          some (.mul e1 e2, sb)
        else
          let tens : Int := ⌊(target : ℚ) / 10⌋
          let ones : Int := jsRem target 10
          let (rs, s2) := nextRand s1
          let strategy : Int := ⌊rs * 3⌋
          if strategy = 0 ∧ target ≤ 20 then
            let (e1, sa) := getDigitExpr s2 10 baseNumber
            let (e2, sb) := getDigitExpr sa ones baseNumber
            some (.add e1 e2, sb)
          else if strategy = 1 ∧ ones = 0 then
            let (e1, sa) := getDigitExpr s2 tens baseNumber
            let (e2, sb) := getDigitExpr sa 10 baseNumber
            some (.mul e1 e2, sb)
          else if strategy = 2 ∧ target ≤ 50 then
            let (e1, sa) := getDigitExpr s2 tens baseNumber
            let (e2, sb) := getDigitExpr sa 10 baseNumber
            let (e3, sc) := getDigitExpr sb ones baseNumber
            some (.add (.mul e1 e2) e3, sc)
          else
            let nearestTen := tens * 10
            let (rc, s3) := nextRand s2
            if rc > 1/2 ∧ ones ≤ 5 then
              match generateDecimalExpression fuel nearestTen baseNumber s3 with
              | none => none
              | some (e1, sa) =>
                  let (e2, sb) := getDigitExpr sa ones baseNumber
                  some (.add e1 e2, sb)
            else
              let nextTen := (tens + 1) * 10
              match generateDecimalExpression fuel nextTen baseNumber s3 with
              | none => none
              | some (e1, sa) =>
                  let (e2, sb) := getDigitExpr sa (10 - ones) baseNumber
                  some (.sub e1 e2, sb)
      match gen with
      | none => none
      | some (expr, sg) =>
          match cached with
          | none => some (expr, cacheSet sg target [expr])
          | some _ =>
              let cur := (cacheGet sg target).getD []
              if cur.length < 3 then some (expr, cacheSet sg target (cur ++ [expr]))
              else some (expr, sg)

/-- The descending trial-division loop of `decompose`
(src/JrrpCalculator.ts lines 313-321): first `i` from
`min(9, floor(sqrt(num)))` down to 2 dividing `num`. -/
def findDivisorDesc (num : Int) (bound : Nat) : Option Int :=
  (((List.range (bound - 1)).map fun k => (bound - k : Int)).find? fun i => jsRem num i == 0)

/-- The recursive `decompose` closure of
`ExpressionGenerator.generatePrimeFactorsExpression` (src/JrrpCalculator.ts
lines 308-331): digit table below 11, cached entries verbatim, largest
single-digit divisor at most `sqrt(num)`, and an additive/subtractive
correction against the lower multiple of ten otherwise. -/
def decompose : Nat → Int → Int → GenState → Option (Expr × GenState)
  | 0, _, _, _ => none
  | fuel + 1, num, baseNumber, s0 =>
    if num ≤ 10 then some (getDigitExpr s0 num baseNumber) else
    match cacheGet s0 num with
    | some l =>
        let (r, s1) := nextRand s0
        some (pickFrom l r (.num num), s1)
    | none =>
        match findDivisorDesc num (min 9 (Nat.sqrt num.toNat)) with
        | some i =>
            let quotient := num / i
            if quotient ≤ 10 then
              let (e1, s1) := getDigitExpr s0 i baseNumber
              let (e2, s2) := getDigitExpr s1 quotient baseNumber
              some (.mul e1 e2, s2)
            else
              let (e1, s1) := getDigitExpr s0 i baseNumber
              match decompose fuel quotient baseNumber s1 with
              | none => none
              | some (e2, s2) => some (.mul e1 e2, s2)
        | none =>
            let base := ⌊(num : ℚ) / 10⌋ * 10
            let diff := num - base
            if diff = 0 then
              match decompose fuel (num / 10) baseNumber s0 with
              | none => none
              | some (e1, s1) =>
                  let (e2, s2) := getDigitExpr s1 10 baseNumber
                  some (.mulRaw e1 e2, s2)
            else if diff > 0 then
              match decompose fuel base baseNumber s0 with
              | none => none
              | some (e1, s1) =>
                  let (e2, s2) := getDigitExpr s1 diff baseNumber
                  some (.add e1 e2, s2)
            else
              match decompose fuel base baseNumber s0 with
              | none => none
              | some (e1, s1) =>
                  let (e2, s2) := getDigitExpr s1 (-diff) baseNumber
                  some (.sub e1 e2, s2)

/-- Embedding of `ExpressionGenerator.generatePrimeFactorsExpression`
(src/JrrpCalculator.ts lines 302-333). Unlike the other two generators it
stores nothing in the cache and returns a cached entry unconditionally when
one exists. -/
def generatePrimeFactorsExpression (fuel : Nat) (target baseNumber : Int)
    (s0 : GenState) : Option (Expr × GenState) :=
  if target ≤ 10 then some (getDigitExpr s0 target baseNumber) else
  match cacheGet s0 target with
  | some l =>
      let (r, s1) := nextRand s0
      some (pickFrom l r (.num target), s1)
  | none =>
      if target = 100 then
        let (e1, s1) := getDigitExpr s0 10 baseNumber
        let (e2, s2) := getDigitExpr s1 10 baseNumber
        some (.mul e1 e2, s2)
      else decompose fuel target baseNumber s0

/-- The ascending small-factor loop of mixed strategy (d)
(src/JrrpCalculator.ts lines 393-400): first `i` in `1..min(10, target)`
with `target % i == 0` and `target / i <= 10`. -/
def findSmallFactor (target : Int) : Option Int :=
  (((List.range (min 10 target.toNat)).map fun k => (k + 1 : Int)).find?
    fun i => jsRem target i == 0 && target / i ≤ 10)

/-- Embedding of `ExpressionGenerator.generateMixedOperationsExpression`
(src/JrrpCalculator.ts lines 341-415): cache probe as in the decimal
generator, then one of the four strategy closures chosen by
`Math.floor(Math.random() * 4)` — (0) tens split, (1) base-digit
quotient/remainder split, (2) power-of-two shift split, (3) small-factor
search with midpoint fallback — with the same store step at the end. -/
def generateMixedOperationsExpression : Nat → Int → Int → GenState → Option (Expr × GenState)
  | 0, _, _, _ => none
  | fuel + 1, target, baseNumber, s0 =>
    if target ≤ 10 then some (getDigitExpr s0 target baseNumber) else
    let cached := cacheGet s0 target
    let hit : Bool × GenState :=
      match cached with
      | some l =>
          if 0 < l.length then
            let (r, s1) := nextRand s0
            (decide (r > 3/10), s1)
          else (false, s0)
      | none => (false, s0)
    if hit.1 then
      let l := (cacheGet s0 target).getD []
      let (r2, s2) := nextRand hit.2
      some (pickFrom l r2 (.num target), s2)
    else
      let s1 := hit.2
      let (bExpr, s2) := getDigitExpr s1 baseNumber baseNumber
      let gen : Option (Expr × GenState) :=
        if target = 0 then some (.sub bExpr bExpr, s2)
        else if target = 100 then
          match generateMixedOperationsExpression fuel ⌊(100 : ℚ) / baseNumber⌋ baseNumber s2 with
          | none => none
          | some (e, s3) => some (.mul bExpr e, s3)
        else
          let (rs, s3) := nextRand s2
          let k : Int := ⌊rs * 4⌋
          if k = 0 then
            let base := ⌊(target : ℚ) / 10⌋ * 10
            let diff := target - base
            if diff ≥ 0 then
              match generateMixedOperationsExpression fuel base baseNumber s3 with
              | none => none
              | some (e, s4) =>
                  let (d, s5) := getDigitExpr s4 diff baseNumber
                  some (.add e d, s5)
            else
              match generateMixedOperationsExpression fuel base baseNumber s3 with
              | none => none
              | some (e, s4) =>
                  let (d, s5) := getDigitExpr s4 (-diff) baseNumber
                  some (.sub e d, s5)
          else if k = 1 then
            let quotient := ⌊(target : ℚ) / baseNumber⌋
            let remainder := jsRem target baseNumber
            if remainder = 0 then
              match generateMixedOperationsExpression fuel quotient baseNumber s3 with
              | none => none
              | some (e, s4) => some (.mul bExpr e, s4)
            else if (remainder : ℚ) ≤ (baseNumber : ℚ) / 2 then
              match generateMixedOperationsExpression fuel quotient baseNumber s3 with
              | none => none
              | some (e, s4) =>
                  let (d, s5) := getDigitExpr s4 remainder baseNumber
                  some (.add (.mul bExpr e) d, s5)
            else
              match generateMixedOperationsExpression fuel (quotient + 1) baseNumber s3 with
              | none => none
              | some (e, s4) =>
                  let (d, s5) := getDigitExpr s4 (baseNumber - remainder) baseNumber
                  some (.sub (.mul bExpr e) d, s5)
          else if k = 2 then
            let maxShift : Int := (Nat.log2 target.toNat : Int)
            let base := jsShl 1 maxShift
            let remainder := target - base
            if remainder = 0 then
              let (d, s4) := getDigitExpr s3 maxShift baseNumber
              some (.shl bExpr d, s4)
            else if remainder < 0 then
              let (d, s4) := getDigitExpr s3 maxShift baseNumber
              match generateMixedOperationsExpression fuel (-remainder) baseNumber s4 with
              | none => none
              | some (e, s5) => some (.sub (.shl bExpr d) e, s5)
            else
              let (d, s4) := getDigitExpr s3 maxShift baseNumber
              match generateMixedOperationsExpression fuel remainder baseNumber s4 with
              | none => none
              | some (e, s5) => some (.add (.shl bExpr d) e, s5)
          else
            match findSmallFactor target with
            | some i =>
                let quotient := target / i
                let (d1, s4) := getDigitExpr s3 i baseNumber
                let (d2, s5) := getDigitExpr s4 quotient baseNumber
                some (.mul d1 d2, s5)
            | none =>
                let mid := ⌊(target : ℚ) / 2⌋
                match generateMixedOperationsExpression fuel mid baseNumber s3 with
                | none => none
                | some (e1, s4) =>
                    match generateMixedOperationsExpression fuel (target - mid) baseNumber s4 with
                    | none => none
                    | some (e2, s5) => some (.add e1 e2, s5)
      match gen with
      | none => none
      | some (expr, sg) =>
          match cached with
          | none => some (expr, cacheSet sg target [expr])
          | some _ =>
              let cur := (cacheGet sg target).getD []
              if cur.length < 3 then some (expr, cacheSet sg target (cur ++ [expr]))
              else some (expr, sg)

/-! ## Helper lemmas -/

theorem toUint32_nonneg (n : Int) : 0 ≤ toUint32 n :=
  Int.emod_nonneg n (by norm_num)

theorem toUint32_lt (n : Int) : toUint32 n < 2 ^ 32 :=
  Int.emod_lt_of_pos n (by norm_num)

theorem toInt32_lb (n : Int) : -(2 ^ 31) ≤ toInt32 n := by
  unfold toInt32
  have h1 := Int.emod_nonneg n (show (2 ^ 32 : Int) ≠ 0 by norm_num)
  have h2 := Int.emod_lt_of_pos n (show (0 : Int) < 2 ^ 32 by norm_num)
  simp only []
  split <;> omega

theorem toInt32_ub (n : Int) : toInt32 n < 2 ^ 31 := by
  unfold toInt32
  have h1 := Int.emod_nonneg n (show (2 ^ 32 : Int) ≠ 0 by norm_num)
  have h2 := Int.emod_lt_of_pos n (show (0 : Int) < 2 ^ 32 by norm_num)
  simp only []
  split <;> omega

theorem hashCode_nonneg (s : List Nat) : 0 ≤ hashCode s := by
  unfold hashCode
  have key : ∀ (l : List Nat) (a : Int), 0 ≤ a →
      0 ≤ l.foldl (fun hash c => toUint32 (jsShl hash 5 + hash + (c : Int))) a := by
    intro l
    induction l with
    | nil => intro a ha; simpa using ha
    | cons c cs ih =>
        intro a _
        exact ih _ (toUint32_nonneg _)
  exact key s 5381 (by norm_num)

theorem hashCode_lt (s : List Nat) : hashCode s < 2 ^ 32 := by
  unfold hashCode
  have key : ∀ (l : List Nat) (a : Int), a < 2 ^ 32 →
      l.foldl (fun hash c => toUint32 (jsShl hash 5 + hash + (c : Int))) a < 2 ^ 32 := by
    intro l
    induction l with
    | nil => intro a ha; simpa using ha
    | cons c cs ih =>
        intro a _
        exact ih _ (toUint32_lt _)
  exact key s 5381 (by norm_num)

theorem generateSeedHash_bounds (s : List Nat) :
    -(2 ^ 31) ≤ generateSeedHash s ∧ generateSeedHash s < 2 ^ 31 := by
  unfold generateSeedHash
  have key : ∀ (l : List Nat) (a : Int), -(2 ^ 31) ≤ a → a < 2 ^ 31 →
      -(2 ^ 31) ≤ l.foldl (fun hash c => toInt32 (jsShl hash 5 - hash + (c : Int))) a ∧
        l.foldl (fun hash c => toInt32 (jsShl hash 5 - hash + (c : Int))) a < 2 ^ 31 := by
    intro l
    induction l with
    | nil => intro a h1 h2; simpa using ⟨h1, h2⟩
    | cons c cs ih =>
        intro a _ _
        exact ih _ (toInt32_lb _) (toInt32_ub _)
  exact key s 0 (by norm_num) (by norm_num)

/-- Rounding bound: `round` of a rational in `[0, u]` lies in `[0, ⌊u + 1/2⌋]`. -/
theorem round_bounds {x u : ℚ} (h0 : 0 ≤ x) (hu : x ≤ u) :
    0 ≤ round x ∧ round x ≤ ⌊u + 1/2⌋ := by
  constructor
  · rw [round_eq]
    exact Int.floor_nonneg.2 (by linarith)
  · rw [round_eq]
    exact Int.floor_le_floor (by linarith)

/-- The identification-code score (the shared tail of both
`calculateJrrpWithCode` implementations) lies in `[0, 100]`. -/
theorem serviceCalculateJrrpWithCode_range (fops : FloatOps) (yearStart : YearStart)
    (code : List Nat) (date : JSDate) (password : List Nat) :
    0 ≤ serviceCalculateJrrpWithCode fops yearStart code date password ∧
      serviceCalculateJrrpWithCode fops yearStart code date password ≤ 100 := by
  unfold serviceCalculateJrrpWithCode
  set normalizedHash : ℚ :=
    |fops.ofBigInt ((serviceGetHash
        (codes "asdfgbn" ++ intStr (⌊((date.time - yearStart date.year : ℚ) / (1000 * 60 * 60 * 24))⌋) ++
          codes "12#3$45" ++ intStr date.year ++ codes "IUY") : Nat) / 3 +
        (serviceGetHash (password ++ code ++ codes "0*8&6" ++ intStr date.day ++ codes "kjhg") : Nat) / 3 :
        Nat) / 527| with hN
  have hround : 0 ≤ round normalizedHash := by
    rw [round_eq]
    exact Int.floor_nonneg.2 (by positivity)
  have h0 : 0 ≤ jsRem (round normalizedHash) 1001 := Int.tmod_nonneg _ hround
  have h1 : jsRem (round normalizedHash) 1001 < 1001 :=
    Int.tmod_lt_of_pos _ (by norm_num)
  set rv : Int := jsRem (round normalizedHash) 1001 with hrv
  by_cases hcase : rv ≥ 970
  · simp only [hcase, if_true]
    norm_num
  · simp only [hcase, if_false]
    have hrvu : rv ≤ 1000 := by omega
    have hb := round_bounds (x := (rv : ℚ) / 969 * 99) (u := (969 : ℚ) / 969 * 99)
      (by positivity)
      (by
        have : (rv : ℚ) ≤ 969 := by exact_mod_cast (by omega : rv ≤ 969)
        have h969 : (0 : ℚ) < 969 := by norm_num
        rw [div_mul_eq_mul_div, div_mul_eq_mul_div, div_le_div_iff_of_pos_right h969]
        nlinarith)
    refine ⟨hb.1, le_trans hb.2 ?_⟩
    norm_num

/-- Claim C2 helper: the Gaussian clamp lands in `[0, 100]` whatever the
transcendental oracle returned. -/
theorem toNormalLuck_range (fops : FloatOps) (random : ℚ) :
    0 ≤ toNormalLuck fops random ∧ toNormalLuck fops random ≤ 100 := by
  unfold toNormalLuck
  constructor
  · exact le_min (by norm_num) (le_max_left _ _) |>.trans_eq rfl
  · exact min_le_left _ _

/-! ## Claim theorems -/

/-- C2: for every seed string and every date, each of the four local scoring
algorithms of `JrrpService.calculateScoreWithAlgorithm` (modulo/basic,
linear-congruential, Gaussian, identification-code) returns an integer score
in `[0, 100]`, for every floating-point oracle, i.e. regardless of
intermediate overflow in hashing. -/
theorem claim2_score_range (fops : FloatOps) (yearStart : YearStart)
    (userDateSeed : List Nat) (date : JSDate) (algorithm : JrrpAlgorithm)
    (code password : Option (List Nat)) :
    0 ≤ calculateScoreWithAlgorithm fops yearStart userDateSeed date algorithm code password ∧
      calculateScoreWithAlgorithm fops yearStart userDateSeed date algorithm code password ≤ 100 := by
  unfold calculateScoreWithAlgorithm
  split
  · exact serviceCalculateJrrpWithCode_range fops yearStart (code.getD []) date (password.getD [])
  · cases algorithm with
    | gaussian => exact toNormalLuck_range fops _
    | linear =>
        dsimp only
        have hseed := hashCode_nonneg userDateSeed
        have hdividend : 0 ≤ hashCode userDateSeed * 9301 + 49297 := by positivity
        have h0 : 0 ≤ jsRem (hashCode userDateSeed * 9301 + 49297) 233280 :=
          Int.tmod_nonneg _ hdividend
        have h1 : jsRem (hashCode userDateSeed * 9301 + 49297) 233280 < 233280 :=
          Int.tmod_lt_of_pos _ (by norm_num)
        set r : Int := jsRem (hashCode userDateSeed * 9301 + 49297) 233280 with hr
        constructor
        · exact Int.floor_nonneg.2 (by positivity)
        · have : ((r : ℚ) / 233280 * 101) < 101 := by
            have hrq : (r : ℚ) < 233280 := by exact_mod_cast h1
            rw [div_mul_eq_mul_div, div_lt_iff₀ (by norm_num)]
            nlinarith
          have := Int.floor_lt.2 (by exact_mod_cast this :
            ((r : ℚ) / 233280 * 101) < ((101 : Int) : ℚ))
          omega
    | basic =>
        dsimp only
        have h0 : 0 ≤ jsRem |hashCode userDateSeed| 101 :=
          Int.tmod_nonneg _ (abs_nonneg _)
        have h1 : jsRem |hashCode userDateSeed| 101 < 101 :=
          Int.tmod_lt_of_pos _ (by norm_num)
        exact ⟨h0, by omega⟩
    | randomorg =>
        dsimp only
        have h0 : 0 ≤ jsRem |hashCode userDateSeed| 101 :=
          Int.tmod_nonneg _ (abs_nonneg _)
        have h1 : jsRem |hashCode userDateSeed| 101 < 101 :=
          Int.tmod_lt_of_pos _ (by norm_num)
        exact ⟨h0, by omega⟩

/-- C4: `JrrpService.calculateJrrpWithCode` and
`JrrpCalculator.calculateJrrpWithCode` compute the same pure function of
(code, date, password) — they share the 5381 seed, the
`0xa98f501bc684032f` XOR constant, the literal salts, the 527.0 divisor,
the 970 threshold and the 969/99 scale — and repeated calls with identical
arguments return the identical score. -/
theorem claim4_implementations_agree (fops : FloatOps) (yearStart : YearStart)
    (code : List Nat) (date : JSDate) (password : List Nat) :
    serviceCalculateJrrpWithCode fops yearStart code date password
        = calculatorCalculateJrrpWithCode fops yearStart code date password ∧
      serviceCalculateJrrpWithCode fops yearStart code date password
        = serviceCalculateJrrpWithCode fops yearStart code date password :=
  ⟨rfl, rfl⟩

/-- C5: the linear-congruential score equals
`⌊((hash32(seed) * 9301 + 49297) mod 233280) / 233280 * 101⌋` computed in
exact integer/rational arithmetic (with the mathematical, non-negative
`mod`), and the intermediate product stays strictly below the 53-bit
safe-integer bound, so the double-precision computation loses no
precision relative to the exact formula. -/
theorem claim5_linear_exact (fops : FloatOps) (yearStart : YearStart)
    (userDateSeed : List Nat) (date : JSDate) :
    calculateScoreWithAlgorithm fops yearStart userDateSeed date .linear none none
        = ⌊((((hashCode userDateSeed * 9301 + 49297) % 233280 : Int) : ℚ) / 233280 * 101)⌋ ∧
      hashCode userDateSeed * 9301 + 49297 < 2 ^ 53 := by
  constructor
  · unfold calculateScoreWithAlgorithm
    have hdividend : 0 ≤ hashCode userDateSeed * 9301 + 49297 := by
      have := hashCode_nonneg userDateSeed
      positivity
    simp only [truthyStr]
    rw [show jsRem (hashCode userDateSeed * 9301 + 49297) 233280
        = (hashCode userDateSeed * 9301 + 49297) % 233280 from
      Int.tmod_eq_emod hdividend (by norm_num)]
    simp
  · have := hashCode_lt userDateSeed
    nlinarith

set_option maxRecDepth 8000 in
/-- C7 counterexample: the claim puts `hashCode` values in the signed
32-bit range `[-2^31, 2^31-1]` and makes the hash return 5381 on the empty
string; but `hashCode` wraps with `>>> 0` into the unsigned range, and on
the seed `"u-2024-01-01"` it returns `4273349355 > 2^31 - 1`, while
`FortuneCalc.generateSeed` (the other cited hash) returns 0, not 5381, on
the empty string. -/
theorem claim7_counterexample :
    hashCode (codes "u-2024-01-01") = 4273349355 ∧
      ¬ hashCode (codes "u-2024-01-01") ≤ 2 ^ 31 - 1 ∧
      generateSeed [] [] = 0 ∧ (generateSeed [] [] : Int) ≠ 5381 := by
  refine ⟨by decide, by decide, by decide, by decide⟩

/-- C7 as amended: both hashes are total over all strings;
`JrrpService.hashCode` wraps to the UNSIGNED 32-bit range `[0, 2^32)` at
every step and returns 5381 on the empty string, while
`FortuneCalc.generateSeed` wraps to signed 32-bit and returns an absolute
value in `[0, 2^31]`, returning 0 (its initial accumulator) on the empty
string. -/
theorem claim7_amended :
    (∀ s : List Nat, 0 ≤ hashCode s ∧ hashCode s < 2 ^ 32) ∧
      hashCode [] = 5381 ∧
      (∀ userId dateStr : List Nat,
        0 ≤ generateSeed userId dateStr ∧ generateSeed userId dateStr ≤ 2 ^ 31) ∧
      generateSeed [] [] = 0 := by
  refine ⟨fun s => ⟨hashCode_nonneg s, hashCode_lt s⟩, by decide, fun u d => ?_, by decide⟩
  have h := generateSeedHash_bounds (u ++ d)
  unfold generateSeed
  constructor
  · exact abs_nonneg _
  · rw [abs_le]
    omega

/-- A concrete floating-point oracle used for counterexamples and
witnesses: `Math.sin` behaviour `sin x = 0` (the exact value of
`Math.sin(0)`), everything else constantly zero. -/
def fops0 : FloatOps :=
  ⟨fun _ => 0, fun _ => 0, fun _ => 0, fun _ => 0, 0, fun _ => [], fun _ => 0⟩

/-- A concrete `new Date(y,0,0).getTime()` table for witnesses. -/
def yearStart0 : YearStart := fun _ => 0

/-- A concrete date for witnesses. -/
def d0 : JSDate := ⟨0, 0, 0, 0, 0⟩

/-- An empty user-data map for witnesses. -/
def bindM0 : UserMap := fun _ => none

set_option maxRecDepth 8000 in
/-- C1 (code bug): the claim — every synthesized expression evaluates to its
target — fails on the code. `generateDecimalExpression(20, 6)` under random
strategy 0 (`target <= 20`) emits `"(10 + 0)"`, which evaluates to 10, not
20; and `generateMixedOperationsExpression(16, 6)` under the power-of-two
strategy (random index 2) emits `"(6 << 4)"`, which evaluates to 96, not
16. (With the digit table dead — see `getDigitExpr` — digits render
literally, but the identities are wrong regardless: the entries for 10 and
0 of the initialized table also evaluate to 10 and 0.) -/
theorem claim1_code_bug :
    ((generateDecimalExpression 2 20 6 ⟨[], [0]⟩).map fun p => (render p.1, evalE p.1))
        = some ("(10 + 0)", 10) ∧
      ((generateMixedOperationsExpression 2 16 6 ⟨[], [1/2]⟩).map fun p => (render p.1, evalE p.1))
        = some ("(6 << 4)", 96) ∧
      (10 : Int) ≠ 20 ∧ (96 : Int) ≠ 16 := by
  refine ⟨?_, ?_, by decide, by decide⟩
  · have h1 : jsRem (20 : Int) 10 = 0 := by decide
    simp [generateDecimalExpression, getDigitExpr, cacheGet, cacheSet, nextRand, pickFrom,
      render, evalE, h1]
    rfl
  · have h0 : (16 : Int).toNat = 16 := rfl
    have h1 : Nat.log2 16 = 4 := by simp [Nat.log2]
    have h2 : jsShl 1 4 = 16 := by decide
    have h3 : jsShl 6 4 = 96 := by decide
    norm_num [generateMixedOperationsExpression, getDigitExpr, cacheGet, cacheSet, nextRand,
      pickFrom, render, evalE, h0, h1, h2, h3]
    rfl

set_option maxRecDepth 8000 in
/-- C3 counterexample: with the `randomorg` algorithm configured, no bound
identification code, the current day, no cached score and a failed remote
fetch, the fortune selection of `formatJrrpMessage` returns the Modulo (`basic`)
score over the fallback seed `"u-2024-01-01"` (which is 66) — but labels it
`randomorg`, the remote algorithm, not a fallback label. -/
theorem claim3_counterexample :
    chooseFortuneResult fops0 yearStart0 (fun _ => true) .randomorg none none none
        (codes "u") (codes "2024-01-01") (codes "2024-01-01") d0 d0 true false
      = some (66, .alg .randomorg) ∧
      calculateScoreWithAlgorithm fops0 yearStart0 (codes "u-2024-01-01") d0 .basic none none
        = 66 ∧
      AlgLabel.alg .randomorg ≠ AlgLabel.alg .basic := by
  refine ⟨by decide, by decide, by decide⟩

/-- C3 as amended: on remote failure `JrrpService` does fall back to the
Modulo (`basic`) algorithm over the documented seed `userId + "-" + date`,
but the algorithm reported alongside the score is still `randomorg` (the
remote label), not a fallback identifier; `FortuneCalc.calculate` likewise
falls back locally (to its own formula, not Modulo) and also reports the
configured `randomorg` algorithm. -/
theorem claim3_amended :
    (∀ (fops : FloatOps) (yearStart : YearStart) (expired : List Nat → Bool)
        (remote : Option Int) (userId todayStr nowStr : List Nat) (dfc now : JSDate),
      chooseFortuneResult fops yearStart expired .randomorg none none remote
          userId todayStr nowStr dfc now true false
        = some (remote.getD (calculateScoreWithAlgorithm fops yearStart
            (userId ++ codes "-" ++ nowStr) now .basic none none), .alg .randomorg)) ∧
    (∀ (fops : FloatOps) (apiKey : Option (List Nat)) (userId dateStr : List Nat),
      fortuneCalculate fops .randomorg apiKey none userId dateStr
        = (fortuneLocalScore fops .randomorg userId dateStr, .randomorg)) := by
  constructor
  · intro fops yearStart expired remote userId todayStr nowStr dfc now
    cases remote <;> rfl
  · intro fops apiKey userId dateStr
    unfold fortuneCalculate
    by_cases h : (JrrpAlgorithm.randomorg = JrrpAlgorithm.randomorg ∧ truthyStr apiKey = true)
    · rw [if_pos h]
    · rw [if_neg h]

/-- C6 counterexample: in the Gaussian branch of `JrrpService` no epsilon is
ever substituted. Under an oracle with `sin = 0` (the exact IEEE value of
`Math.sin(0)`), `u1 = normalRandom(seed)` is exactly 0, yet the value
carried into the Box-Muller stage is `(0 + dateWeight)/2 = 1/2` for a
Saturday — not `(0.0001 + dateWeight)/2` as the claimed substitution would
give. -/
theorem claim6_counterexample :
    normalRandom fops0 (codes "u") = 0 ∧
      gaussianWeighted fops0 (codes "u") 6 = (0 + (6 + 1) / 7) / 2 ∧
      gaussianWeighted fops0 (codes "u") 6 ≠ (1 / 10000 + (6 + 1) / 7) / 2 := by
  refine ⟨by norm_num [normalRandom, fops0], by norm_num [gaussianWeighted, normalRandom, fops0], ?_⟩
  norm_num [gaussianWeighted, normalRandom, fops0]

/-- C6 as amended: the Gaussian branch of `FortuneCalc.calculate` substitutes the
literal 0.0001 whenever the raw fractional value of `u1` or of `u2` is
exactly 0, so both `u1` and `u2` are always positive there; the Gaussian
branch of `JrrpService` performs no substitution, but the value it feeds to
`Math.log`, `(normalRandom(seed) + (weekday+1)/7)/2`, is at least 1/14 for
every seed and date (weekday ≥ 0), so `ln(0)` is never evaluated there
either. -/
theorem claim6_amended :
    (∀ (fops : FloatOps) (seed : Int), 0 < fortuneU1 fops seed) ∧
      (∀ (fops : FloatOps) (seed : Int), 0 < fortuneU2 fops seed) ∧
      (∀ (fops : FloatOps) (seed : Int),
        |jsMod1 (fops.sin (seed : ℚ) * 10000)| = 0 → fortuneU1 fops seed = 1 / 10000) ∧
      (∀ (fops : FloatOps) (seed : Int),
        |jsMod1 (fops.sin ((seed : ℚ) + 127) * 10000)| = 0 → fortuneU2 fops seed = 1 / 10000) ∧
      (∀ (fops : FloatOps) (seed : List Nat) (weekday : Int),
        0 ≤ weekday → (1 : ℚ) / 14 ≤ gaussianWeighted fops seed weekday) := by
  refine ⟨fun fops seed => ?_, fun fops seed => ?_, fun fops seed h => ?_,
    fun fops seed h => ?_, fun fops seed w hw => ?_⟩
  · unfold fortuneU1
    dsimp only
    split
    · norm_num
    · rename_i h
      exact lt_of_le_of_ne (abs_nonneg _) (Ne.symm h)
  · unfold fortuneU2
    dsimp only
    split
    · norm_num
    · rename_i h
      exact lt_of_le_of_ne (abs_nonneg _) (Ne.symm h)
  · unfold fortuneU1
    dsimp only
    rw [if_pos h]
  · unfold fortuneU2
    dsimp only
    rw [if_pos h]
  · unfold gaussianWeighted normalRandom
    dsimp only
    have hfract : (0 : ℚ) ≤ fops.sin ((hashCode seed : Int) : ℚ) * 10000 -
        ⌊fops.sin ((hashCode seed : Int) : ℚ) * 10000⌋ :=
      sub_nonneg.2 (Int.floor_le _)
    have hw7 : (1 : ℚ) / 7 ≤ ((w : ℚ) + 1) / 7 := by
      have : (0 : ℚ) ≤ (w : ℚ) := by exact_mod_cast hw
      linarith
    linarith

/-- C6 amended, concrete witness: both substitutions fire for a zero raw
fraction (`u1` and `u2` alike) and the `JrrpService` log argument is at
least 1/14 on a Saturday. -/
theorem claim6_amended_witness :
    fortuneU1 fops0 5 = 1 / 10000 ∧ fortuneU2 fops0 5 = 1 / 10000 ∧
      (1 : ℚ) / 14 ≤ gaussianWeighted fops0 (codes "u") 6 :=
  ⟨claim6_amended.2.2.1 fops0 5 (by norm_num [fops0, jsMod1]),
    claim6_amended.2.2.2.1 fops0 5 (by norm_num [fops0, jsMod1]),
    claim6_amended.2.2.2.2 fops0 (codes "u") 6 (by norm_num)⟩

set_option maxRecDepth 8000 in
/-- C8 counterexample: called with the out-of-domain target 101, the
synthesizer does not fail with an `OutOfRange` error — it happily returns
the ordinary expression string `"((10 * 10) + 1)"` (which even evaluates to
101). No domain validation exists anywhere in the generators. -/
theorem claim8_counterexample :
    ((generateDecimalExpression 3 101 6 ⟨[], [0, 6/10]⟩).map fun p => (render p.1, evalE p.1))
      = some ("((10 * 10) + 1)", 101) := by
  have h1 : jsRem (101 : Int) 10 = 1 := by decide
  norm_num [generateDecimalExpression, getDigitExpr, cacheGet, cacheSet, nextRand, pickFrom,
    render, evalE, h1]
  rfl

/-- C8 as amended: the generators perform no domain validation at all; in
particular every call with `target ≤ 10` (including every negative target
and any base digit whatsoever) immediately returns a normal digit
expression, and out-of-range targets above 100 also return ordinary strings
(see the counterexample). -/
theorem claim8_amended (fuel : Nat) (target baseNumber : Int) (s : GenState)
    (h : target ≤ 10) :
    generateDecimalExpression (fuel + 1) target baseNumber s
      = some (getDigitExpr s target baseNumber) := by
  unfold generateDecimalExpression
  rw [if_pos h]

/-- C8 amended, concrete witness: target −5 with base digit 0 (both far out
of domain) still yields a normal result. -/
theorem claim8_amended_witness :
    (-5 : Int) ≤ 10 ∧
      generateDecimalExpression 1 (-5) 0 ⟨[], []⟩ = some (getDigitExpr ⟨[], []⟩ (-5) 0) :=
  ⟨by norm_num, claim8_amended 0 (-5) 0 ⟨[], []⟩ (by norm_num)⟩

/-- C9 (code bug): the claim — outputs contain no digit literal other than
the base digit — fails on the code. Because the constructor pre-sets
`expressionsInitialized = true`, the base-digit table is never built, so
`generateDecimalExpression(5, 6)` returns the literal string `"5"` and
`generatePrimeFactorsExpression(7, 6)` returns `"7"`: digits different from
the base digit 6. -/
theorem claim9_code_bug :
    ((generateDecimalExpression 1 5 6 ⟨[], []⟩).map fun p => render p.1) = some "5" ∧
      ((generatePrimeFactorsExpression 1 7 6 ⟨[], []⟩).map fun p => render p.1) = some "7" ∧
      ("5" : String) ≠ "6" := by
  refine ⟨by decide, by decide, by decide⟩

/-- C10: a successful `bindIdentificationCode(userId, code)` updates only
the entry for `userId`: that entry becomes the old record (or a fresh one)
with `identification_code` set to the trimmed, upper-cased code — all other
fields, `perfect_score` included, preserved — and the entry of every other user
is untouched. -/
theorem claim10_bind_frame (m : UserMap) (userId code : List Nat)
    (h : (bindIdentificationCode m userId code).1 = true) :
    (bindIdentificationCode m userId code).2 userId
        = some { (m userId).getD {} with
            identification_code := some (jsUpper (jsTrim code)) } ∧
      ((bindIdentificationCode m userId code).2 userId).map (·.perfect_score)
        = some ((m userId).getD {}).perfect_score ∧
      ∀ uid, uid ≠ userId → (bindIdentificationCode m userId code).2 uid = m uid := by
  unfold bindIdentificationCode at h ⊢
  by_cases h1 : jsTrim code = []
  · rw [if_pos h1] at h
    exact absurd h (by simp)
  · rw [if_neg h1] at h ⊢
    by_cases h2 : codePatternOk (jsUpper (jsTrim code))
    · simp only [h2, not_true_eq_false, if_false]
      refine ⟨by simp, by simp, fun uid huid => by simp [huid]⟩
    · rw [if_pos (by simpa using h2)] at h
      exact absurd h (by simp)

set_option maxRecDepth 8000 in
/-- C10 witness: binding `" abcd-1234-5678-90ef "` for user `"alice"` in an
empty map succeeds, stores the trimmed upper-cased code for alice, and
leaves user `"bob"` absent. -/
theorem claim10_bind_frame_witness :
    (bindIdentificationCode bindM0 (codes "alice") (codes " abcd-1234-5678-90ef ")).1 = true ∧
      (bindIdentificationCode bindM0 (codes "alice") (codes " abcd-1234-5678-90ef ")).2 (codes "alice")
        = some { (bindM0 (codes "alice")).getD {} with
            identification_code := some (jsUpper (jsTrim (codes " abcd-1234-5678-90ef "))) } ∧
      (bindIdentificationCode bindM0 (codes "alice") (codes " abcd-1234-5678-90ef ")).2 (codes "bob")
        = bindM0 (codes "bob") :=
  ⟨by decide,
    (claim10_bind_frame bindM0 (codes "alice") (codes " abcd-1234-5678-90ef ") (by decide)).1,
    (claim10_bind_frame bindM0 (codes "alice") (codes " abcd-1234-5678-90ef ") (by decide)).2.2
      (codes "bob") (by decide)⟩

end Jrrp
